import Mathlib

/-!
Shallow embedding of the store-publishing core of `shopware-cli`
(package `account_api`): review-result classification, the semantic-version
filter on software versions, icon normalization with multipart upload, the
gallery image operations, and the error-wrapping discipline of the endpoint
methods.  External collaborators (the HTTP transport, the semantic-version
library, the image codec, the HTML sanitizer) are passed in as parameters,
mirroring the Go code calling into their packages.
-/

/-- One sub-check of an automated code review (`SubCheckResults` entries). -/
structure SubCheckResult where
  SubCheck : String
  Status : String
  Passed : Bool
  Message : String
  HasWarnings : Bool
  deriving Repr, DecidableEq

/-- The dual-keyed `type` field of a review result (numeric id + string name). -/
structure ReviewType where
  Id : Int
  Name : String
  Description : String
  deriving Repr, DecidableEq

/-- A `BinaryReviewResult` as deserialized from the check-results endpoint. -/
structure BinaryReviewResult where
  Id : Int
  BinaryId : Int
  type : ReviewType
  Message : String
  CreationDate : String
  SubCheckResults : List SubCheckResult
  deriving Repr, DecidableEq

/-- `HasPassed`: `review.Type.Id == 3 || review.Type.Name == "automaticcodereviewsucceeded"`. -/
def BinaryReviewResult.HasPassed (review : BinaryReviewResult) : Bool :=
  review.type.Id == 3 || review.type.Name == "automaticcodereviewsucceeded"

/-- `HasWarnings`: the loop over `SubCheckResults` returning true at the first
entry with `HasWarnings` set, false after the loop. -/
def BinaryReviewResult.HasWarnings (review : BinaryReviewResult) : Bool :=
  review.SubCheckResults.any (fun result => result.HasWarnings)

/-- `IsPending`: `review.Type.Id == 4`. -/
def BinaryReviewResult.IsPending (review : BinaryReviewResult) : Bool :=
  review.type.Id == 4

/-- The text appended to the summary for one sub-check: a header naming the
sub-check, then its message passed through the bluemonday sanitizer. -/
def summaryEntry (sanitize : String → String) (result : SubCheckResult) : String :=
  "=== " ++ result.SubCheck ++ " ===\n" ++ sanitize result.Message ++ "\n\n"

/-- `GetSummary`: fold over the sub-checks, skipping those that passed without
warnings, appending header plus sanitized message for the rest.  The
bluemonday policy is the abstract `sanitize` parameter. -/
def BinaryReviewResult.GetSummary (sanitize : String → String)
    (review : BinaryReviewResult) : String :=
  review.SubCheckResults.foldl
    (fun message result =>
      if result.Passed && !result.HasWarnings then message
      else message ++ summaryEntry sanitize result)
    ""

/-- A second definition following the words of the spec: the in-order
concatenation, over exactly the sub-checks that failed or carry warnings, of
the header plus sanitized message ("separated by blank lines" — each entry
ends in a blank line). -/
def summaryPerSpec (sanitize : String → String) : List SubCheckResult → String
  | [] => ""
  | result :: rest =>
      (if !result.Passed || result.HasWarnings then summaryEntry sanitize result else "")
        ++ summaryPerSpec sanitize rest

/-- A `SoftwareVersion` catalog record.  Its Go declaration is not under the
sources given; the fields are the ones the spec lists (id, semantic-version
name, selectable flag) and the ones `FilterOnVersion` reads (`Name`,
`Selectable`). -/
structure SoftwareVersion where
  Id : Int
  Name : String
  Selectable : Bool
  deriving Repr, DecidableEq

/-- `type SoftwareVersionList []SoftwareVersion`. -/
def SoftwareVersionList := List SoftwareVersion

/-- The external semantic-version library: `version.NewVersion` (parse, which
can fail) and `constriant.Check` (constraint satisfaction) are abstract
parameters of type `parse`/`check` here. -/
def versionKept {V : Type} (parse : String → Option V) (check : V → Bool)
    (swVersion : SoftwareVersion) : Bool :=
  swVersion.Selectable &&
    match parse swVersion.Name with
    | none => false
    | some v => check v

/-- `FilterOnVersion`: start from an empty list, skip non-selectable entries,
skip entries whose name fails `version.NewVersion`, append entries passing
`constriant.Check`. -/
def FilterOnVersion {V : Type} (parse : String → Option V) (check : V → Bool)
    (list : List SoftwareVersion) : List SoftwareVersion :=
  list.foldl
    (fun newList swVersion =>
      if !swVersion.Selectable then newList
      else
        match parse swVersion.Name with
        | none => newList
        | some v => if check v then newList ++ [swVersion] else newList)
    []

/-- `FilterOnVersionStringList`: same loop, appending `swVersion.Name`. -/
def FilterOnVersionStringList {V : Type} (parse : String → Option V) (check : V → Bool)
    (list : List SoftwareVersion) : List String :=
  list.foldl
    (fun newList swVersion =>
      if !swVersion.Selectable then newList
      else
        match parse swVersion.Name with
        | none => newList
        | some v => if check v then newList ++ [swVersion.Name] else newList)
    []

/-- `fmt.Errorf(errorFormat, err)` where `errorFormat` is the call-site label
followed by `": %v"`. -/
def fmtErr (label msg : String) : String := label ++ ": " ++ msg

/-- Outcome of an endpoint operation that opens a local file, together with
the observable state of that file handle: whether `os.Open` succeeded and
whether `Close` was ever invoked on the handle. -/
structure UploadOutcome (β : Type) where
  result : Except String β
  fileOpened : Bool
  fileClosed : Bool

/-- `UpdateExtensionBinaryInfo`: marshal the update payload, build the
authenticated PUT request, issue it.  The first two failures are wrapped with
the `errorFormat` label; the final `doRequest` error is returned as-is
(`_, err = e.c.doRequest(r); return err`). -/
def UpdateExtensionBinaryInfo (marshal : Except String (List Nat))
    (newRequest : Except String Unit) (doRequest : Except String (List Nat)) :
    Except String Unit :=
  match marshal with
  | .error err => .error (fmtErr "UpdateExtensionBinaryInfo" err)
  | .ok _ =>
    match newRequest with
    | .error err => .error (fmtErr "UpdateExtensionBinaryInfo" err)
    | .ok _ =>
      match doRequest with
      | .error err => .error err
      | .ok _ => .ok ()

/-- `UpdateExtensionBinaryFile`: create the multipart form file, open the zip,
copy it into the form, close the multipart writer, build the request, issue
it.  Every step failure but the final `doRequest` is wrapped with the label;
the zip file handle is never closed on any path. -/
def UpdateExtensionBinaryFile (createFormFile : Except String Unit)
    (openFile : Except String Unit) (copyFile : Except String Unit)
    (writerClose : Except String Unit) (newRequest : Except String Unit)
    (doRequest : Except String (List Nat)) : UploadOutcome Unit :=
  match createFormFile with
  | .error err => ⟨.error (fmtErr "UpdateExtensionBinaryFile" err), false, false⟩
  | .ok _ =>
  match openFile with
  | .error err => ⟨.error (fmtErr "UpdateExtensionBinaryFile" err), false, false⟩
  | .ok _ =>
  match copyFile with
  | .error err => ⟨.error (fmtErr "UpdateExtensionBinaryFile" err), true, false⟩
  | .ok _ =>
  match writerClose with
  | .error err => ⟨.error (fmtErr "UpdateExtensionBinaryFile" err), true, false⟩
  | .ok _ =>
  match newRequest with
  | .error err => ⟨.error (fmtErr "UpdateExtensionBinaryFile" err), true, false⟩
  | .ok _ =>
  match doRequest with
  | .error err => ⟨.error err, true, false⟩
  | .ok _ => ⟨.ok (), true, false⟩

/-- `TriggerCodeReview`: build the authenticated POST request (failure wrapped
with the label), issue it (`_, err = e.c.doRequest(r); return err` — failure
returned as-is). -/
def TriggerCodeReview (newRequest : Except String Unit)
    (doRequest : Except String (List Nat)) : Except String Unit :=
  match newRequest with
  | .error err => .error (fmtErr "TriggerCodeReview" err)
  | .ok _ =>
    match doRequest with
    | .error err => .error err
    | .ok _ => .ok ()

/-- An in-memory decoded image: the bounds `Dx`/`Dy` of a Go `image.Image`
plus abstract pixel content. -/
structure GoImage (α : Type) where
  width : Nat
  height : Nat
  pixels : α
  deriving Repr, DecidableEq

/-- The tail of `UpdateExtensionIcon` after the multipart body bytes are
determined: close the icon file, close the multipart writer, build the
request, issue it.  `payload` is the byte stream that was written into the
form file; on overall success the outcome carries it so the body content is
observable. -/
def iconUploadFinish (closeFile : Except String Unit)
    (writerClose : Except String Unit) (newRequest : Except String Unit)
    (doRequest : Except String (List Nat)) (payload : List Nat) :
    UploadOutcome (List Nat) :=
  match closeFile with
  | .error err => ⟨.error (fmtErr "UpdateExtensionIcon" err), true, true⟩
  | .ok _ =>
  match writerClose with
  | .error err => ⟨.error (fmtErr "UpdateExtensionIcon" err), true, true⟩
  | .ok _ =>
  match newRequest with
  | .error err => ⟨.error (fmtErr "UpdateExtensionIcon" err), true, true⟩
  | .ok _ =>
  match doRequest with
  | .error err => ⟨.error err, true, true⟩
  | .ok _ => ⟨.ok payload, true, true⟩

/-- `UpdateExtensionIcon`: create the form file, open the icon file (its bytes
are `fileBytes`), decode it (`image.Decode`, abstract `decode`); if the
bounds differ from 256×256, scale into a fresh 256×256 canvas with
`draw.CatmullRom.Scale` (abstract pixel function `catmullRomScale`) and
PNG-encode that canvas into the form; otherwise seek back and copy the
original bytes through.  Then close the handle and send.  `iconFile.Close()`
is reached only after a successful body write. -/
def UpdateExtensionIcon {α : Type} (createFormFile : Except String Unit)
    (openFile : Except String (List Nat))
    (decode : List Nat → Except String (GoImage α))
    (catmullRomScale : GoImage α → α)
    (pngEncode : GoImage α → Except String (List Nat))
    (seek : Except String Unit) (copyFile : Except String Unit)
    (closeFile : Except String Unit) (writerClose : Except String Unit)
    (newRequest : Except String Unit) (doRequest : Except String (List Nat)) :
    UploadOutcome (List Nat) :=
  match createFormFile with
  | .error err => ⟨.error (fmtErr "UpdateExtensionIcon" err), false, false⟩
  | .ok _ =>
  match openFile with
  | .error err => ⟨.error (fmtErr "UpdateExtensionIcon" err), false, false⟩
  | .ok fileBytes =>
  match decode fileBytes with
  | .error err => ⟨.error (fmtErr "UpdateExtensionIcon" err), true, false⟩
  | .ok img =>
    if img.width != 256 || img.height != 256 then
      match pngEncode ⟨256, 256, catmullRomScale img⟩ with
      | .error err => ⟨.error (fmtErr "UpdateExtensionIcon" err), true, false⟩
      | .ok encoded => iconUploadFinish closeFile writerClose newRequest doRequest encoded
    else
      match seek with
      | .error err => ⟨.error (fmtErr "UpdateExtensionIcon" err), true, false⟩
      | .ok _ =>
      match copyFile with
      | .error err => ⟨.error (fmtErr "UpdateExtensionIcon" err), true, false⟩
      | .ok _ => iconUploadFinish closeFile writerClose newRequest doRequest fileBytes

/-- A `Locale` record.  Its Go declaration is not under the sources given; the
data model describes locale-keyed entries carrying an id and a name.  (The
name `Locale` itself is taken by an upstream library declaration.) -/
structure GoLocale where
  Id : Int
  Name : String
  deriving Repr, DecidableEq

/-- One entry of `ExtensionImage.Details` (the anonymous struct in Go). -/
structure ExtensionImageDetail where
  Id : Int
  Preview : Bool
  Activated : Bool
  Caption : String
  locale : GoLocale
  deriving Repr, DecidableEq

/-- An `ExtensionImage` gallery record. -/
structure ExtensionImage where
  Id : Int
  RemoteLink : String
  Details : List ExtensionImageDetail
  Priority : Int
  deriving Repr, DecidableEq

/-- Outcome of `AddExtensionImage`: `result = none` models the out-of-range
panic of the unguarded `list[0]` on an empty slice (a crash, not a returned
error value); `some r` models a normal return, error or element. -/
structure GalleryAddOutcome where
  result : Option (Except String ExtensionImage)
  fileOpened : Bool
  fileClosed : Bool

/-- `AddExtensionImage`: create the form file, open the image file, copy it
into the multipart body, close the writer, build and issue the POST, then
`json.Unmarshal` the response into a list and `return list[0], nil` with no
length guard.  The image file handle is never closed on any path. -/
def AddExtensionImage (createFormFile : Except String Unit)
    (openFile : Except String Unit) (copyFile : Except String Unit)
    (writerClose : Except String Unit) (newRequest : Except String Unit)
    (doRequest : Except String Unit)
    (unmarshal : Except String (List ExtensionImage)) : GalleryAddOutcome :=
  match createFormFile with
  | .error err => ⟨some (.error (fmtErr "AddExtensionImage" err)), false, false⟩
  | .ok _ =>
  match openFile with
  | .error err => ⟨some (.error (fmtErr "AddExtensionImage" err)), false, false⟩
  | .ok _ =>
  match copyFile with
  | .error err => ⟨some (.error (fmtErr "AddExtensionImage" err)), true, false⟩
  | .ok _ =>
  match writerClose with
  | .error err => ⟨some (.error (fmtErr "AddExtensionImage" err)), true, false⟩
  | .ok _ =>
  match newRequest with
  | .error err => ⟨some (.error (fmtErr "AddExtensionImage" err)), true, false⟩
  | .ok _ =>
  match doRequest with
  | .error err => ⟨some (.error (fmtErr "AddExtensionImage" err)), true, false⟩
  | .ok _ =>
  match unmarshal with
  | .error err => ⟨some (.error (fmtErr "AddExtensionImage" err)), true, false⟩
  | .ok list =>
    match list with
    | [] => ⟨none, true, false⟩
    | img :: _ => ⟨some (.ok img), true, false⟩

/-- A review result whose type id is the pending code while its type name is
the success name — possible since the two discriminants are independent
fields of the deserialized payload. -/
def pendingNamedSucceededReview : BinaryReviewResult :=
  { Id := 10, BinaryId := 7,
    type := { Id := 4, Name := "automaticcodereviewsucceeded", Description := "" },
    Message := "", CreationDate := "", SubCheckResults := [] }

/-- C1: `HasPassed` returns true iff the type id equals the success code 3 or
the type name equals the success name `"automaticcodereviewsucceeded"`; in
particular a result matching by name only, with a non-success id, passes. -/
theorem C1_hasPassed_dual_discriminant (review : BinaryReviewResult) :
    review.HasPassed = true ↔
      (review.type.Id = 3 ∨ review.type.Name = "automaticcodereviewsucceeded") := by
  simp [BinaryReviewResult.HasPassed]

/-- C4 counterexample: a result whose type id is the pending code 4 and whose
type name is the success name is classified both Pending and Succeeded, so
`IsPending` is not "pending discriminant present and success discriminant
absent". -/
theorem C4_counterexample_pending_and_passed :
    pendingNamedSucceededReview.IsPending = true ∧
      pendingNamedSucceededReview.HasPassed = true := by
  constructor <;> rfl

/-- C4 amended: `IsPending` returns true iff the type id equals the pending
code 4, regardless of whether the success discriminant (id or name) also
matches. -/
theorem C4_isPending_id_only (review : BinaryReviewResult) :
    review.IsPending = true ↔ review.type.Id = 4 := by
  simp [BinaryReviewResult.IsPending]

/-- C8: `HasWarnings` returns true iff some sub-check sets its warnings flag,
independent of pass/fail state; with no sub-checks it returns false. -/
theorem C8_hasWarnings_any_subcheck (review : BinaryReviewResult) :
    (review.HasWarnings = true ↔
      ∃ sub ∈ review.SubCheckResults, sub.HasWarnings = true) ∧
    ({ review with SubCheckResults := [] } : BinaryReviewResult).HasWarnings = false := by
  constructor
  · simp [BinaryReviewResult.HasWarnings, List.any_eq_true]
  · rfl

/-- C6: with every transfer step succeeding, a server response deserializing
to the empty list drives `AddExtensionImage` into the unguarded `list[0]`
access — a crash (`result = none`), not a returned error value — while a
single-element response returns that element. -/
theorem C6_addExtensionImage_unguarded_first :
    (AddExtensionImage (.ok ()) (.ok ()) (.ok ()) (.ok ()) (.ok ()) (.ok ())
        (.ok [])).result = none ∧
      ∀ img : ExtensionImage,
        (AddExtensionImage (.ok ()) (.ok ()) (.ok ()) (.ok ()) (.ok ()) (.ok ())
            (.ok [img])).result = some (.ok img) :=
  ⟨rfl, fun _ => rfl⟩

/-- The loop of `FilterOnVersion`, run from an arbitrary accumulator, appends
exactly the entries kept by `versionKept`, in their original order. -/
theorem filterOnVersion_loop {V : Type} (parse : String → Option V) (check : V → Bool)
    (l : List SoftwareVersion) :
    ∀ acc : List SoftwareVersion,
      l.foldl
        (fun newList swVersion =>
          if !swVersion.Selectable then newList
          else
            match parse swVersion.Name with
            | none => newList
            | some v => if check v then newList ++ [swVersion] else newList)
        acc
      = acc ++ l.filter (versionKept parse check) := by
  induction l with
  | nil => intro acc; simp
  | cons sw rest ih =>
    intro acc
    rw [List.foldl_cons, List.filter_cons, ih]
    by_cases hsel : sw.Selectable = true
    · cases hp : parse sw.Name with
      | none => simp [versionKept, hsel, hp]
      | some v =>
        by_cases hc : check v = true
        · simp [versionKept, hsel, hp, hc]
        · simp [versionKept, hsel, hp, hc]
    · simp [versionKept, hsel]

/-- `FilterOnVersion` equals a `List.filter` with the kept-entry predicate. -/
theorem FilterOnVersion_eq_filter {V : Type} (parse : String → Option V)
    (check : V → Bool) (list : List SoftwareVersion) :
    FilterOnVersion parse check list = list.filter (versionKept parse check) := by
  simpa [FilterOnVersion] using filterOnVersion_loop parse check list []

/-- The loop of `FilterOnVersionStringList` appends the names of exactly the
kept entries, in order. -/
theorem filterOnVersionStringList_loop {V : Type} (parse : String → Option V)
    (check : V → Bool) (l : List SoftwareVersion) :
    ∀ acc : List String,
      l.foldl
        (fun newList swVersion =>
          if !swVersion.Selectable then newList
          else
            match parse swVersion.Name with
            | none => newList
            | some v => if check v then newList ++ [swVersion.Name] else newList)
        acc
      = acc ++ (l.filter (versionKept parse check)).map (fun sw => sw.Name) := by
  induction l with
  | nil => intro acc; simp
  | cons sw rest ih =>
    intro acc
    rw [List.foldl_cons, List.filter_cons, ih]
    by_cases hsel : sw.Selectable = true
    · cases hp : parse sw.Name with
      | none => simp [versionKept, hsel, hp]
      | some v =>
        by_cases hc : check v = true
        · simp [versionKept, hsel, hp, hc]
        · simp [versionKept, hsel, hp, hc]
    · simp [versionKept, hsel]

/-- `FilterOnVersionStringList` is the name projection of `FilterOnVersion`. -/
theorem FilterOnVersionStringList_eq_map {V : Type} (parse : String → Option V)
    (check : V → Bool) (list : List SoftwareVersion) :
    FilterOnVersionStringList parse check list
      = (FilterOnVersion parse check list).map (fun sw => sw.Name) := by
  rw [FilterOnVersion_eq_filter]
  simpa [FilterOnVersionStringList] using filterOnVersionStringList_loop parse check list []

/-- `versionKept` spelt out: selectable, parseable, and satisfying the check. -/
theorem versionKept_iff {V : Type} (parse : String → Option V) (check : V → Bool)
    (sw : SoftwareVersion) :
    versionKept parse check sw = true ↔
      sw.Selectable = true ∧ ∃ v, parse sw.Name = some v ∧ check v = true := by
  unfold versionKept
  cases hp : parse sw.Name <;> simp [hp]

/-- C2: an entry is in the result of `FilterOnVersion` iff it is in the input,
selectable, parses as a semantic version, and satisfies the constraint; the
result is the order-preserving `List.filter` of the input (so exclusion is
silent and the operation is total, with no failure outcome), and the
name-string variant is its name projection. -/
theorem C2_filterOnVersion_characterization {V : Type} (parse : String → Option V)
    (check : V → Bool) (list : List SoftwareVersion) :
    (∀ sw, sw ∈ FilterOnVersion parse check list ↔
        sw ∈ list ∧ sw.Selectable = true ∧ ∃ v, parse sw.Name = some v ∧ check v = true) ∧
    FilterOnVersion parse check list = list.filter (versionKept parse check) ∧
    FilterOnVersionStringList parse check list
      = (FilterOnVersion parse check list).map (fun sw => sw.Name) ∧
    List.Sublist (FilterOnVersion parse check list) list := by
  refine ⟨?_, FilterOnVersion_eq_filter parse check list,
    FilterOnVersionStringList_eq_map parse check list, ?_⟩
  · intro sw
    rw [FilterOnVersion_eq_filter, List.mem_filter, versionKept_iff]
  · rw [FilterOnVersion_eq_filter]
    exact List.filter_sublist list

/-- C10: filtering its own result with the same constraint returns it
unchanged — every kept entry is kept again. -/
theorem C10_filterOnVersion_idempotent {V : Type} (parse : String → Option V)
    (check : V → Bool) (list : List SoftwareVersion) :
    FilterOnVersion parse check (FilterOnVersion parse check list)
      = FilterOnVersion parse check list := by
  rw [FilterOnVersion_eq_filter, FilterOnVersion_eq_filter, List.filter_filter]
  simp

/-- Unfolding `summaryPerSpec` one sub-check at a time. -/
theorem summaryPerSpec_cons (sanitize : String → String) (r : SubCheckResult)
    (rest : List SubCheckResult) :
    summaryPerSpec sanitize (r :: rest)
      = (if !r.Passed || r.HasWarnings then summaryEntry sanitize r else "")
          ++ summaryPerSpec sanitize rest := rfl

/-- The `GetSummary` fold, run from an arbitrary accumulator, appends the
spec-side summary of the remaining sub-checks. -/
theorem getSummary_loop (sanitize : String → String) (l : List SubCheckResult) :
    ∀ acc : String,
      l.foldl
        (fun message result =>
          if result.Passed && !result.HasWarnings then message
          else message ++ summaryEntry sanitize result)
        acc
      = acc ++ summaryPerSpec sanitize l := by
  induction l with
  | nil => intro acc; simp [summaryPerSpec, String.append_empty]
  | cons r rest ih =>
    intro acc
    rw [List.foldl_cons, ih, summaryPerSpec_cons]
    by_cases hp : r.Passed = true <;> by_cases hw : r.HasWarnings = true <;>
      simp [hp, hw, String.append_assoc, String.empty_append]

/-- Sub-checks that all passed warning-free contribute nothing. -/
theorem summaryPerSpec_all_passed (sanitize : String → String) :
    ∀ l : List SubCheckResult,
      (∀ sub ∈ l, sub.Passed = true ∧ sub.HasWarnings = false) →
      summaryPerSpec sanitize l = ""
  | [], _ => rfl
  | r :: rest, h => by
    have hr := h r (List.mem_cons_self r rest)
    have hrest := summaryPerSpec_all_passed sanitize rest
      (fun sub hsub => h sub (List.mem_cons_of_mem r hsub))
    simp [summaryPerSpec, hr.1, hr.2, hrest, String.empty_append]

/-- C5: `GetSummary` is the in-order concatenation, over exactly the
sub-checks that failed or carry warnings, of a header naming the sub-check
followed by its sanitized message and a blank line (`summaryPerSpec`); a
result whose sub-checks all passed warning-free yields the empty summary. -/
theorem C5_getSummary_spec (sanitize : String → String) (review : BinaryReviewResult) :
    review.GetSummary sanitize = summaryPerSpec sanitize review.SubCheckResults ∧
    ((∀ sub ∈ review.SubCheckResults, sub.Passed = true ∧ sub.HasWarnings = false) →
      review.GetSummary sanitize = "") := by
  have hmain : review.GetSummary sanitize = summaryPerSpec sanitize review.SubCheckResults := by
    simpa [BinaryReviewResult.GetSummary, String.empty_append] using
      getSummary_loop sanitize review.SubCheckResults ""
  exact ⟨hmain, fun h => by rw [hmain, summaryPerSpec_all_passed sanitize _ h]⟩

/-- A review with one warning-free passed sub-check and one failed sub-check,
matching the scenario of spec §8 item 5. -/
def mixedReview : BinaryReviewResult :=
  { Id := 1, BinaryId := 2,
    type := { Id := 2, Name := "automaticcodereviewfailed", Description := "" },
    Message := "", CreationDate := "",
    SubCheckResults :=
      [ { SubCheck := "phpstan", Status := "ok", Passed := true,
          Message := "fine", HasWarnings := false },
        { SubCheck := "sniffer", Status := "failed", Passed := false,
          Message := "<script>x</script>hello", HasWarnings := false } ] }

/-- C5 witness: with a sanitizer that maps the failed sub-check message to
`hello`, the summary of `mixedReview` holds only the failed sub-check entry;
and a review whose single sub-check passed warning-free summarizes to the
empty string. -/
theorem C5_getSummary_spec_witness :
    mixedReview.GetSummary
        (fun s => if s == "<script>x</script>hello" then "hello" else s)
      = "=== sniffer ===\nhello\n\n" ∧
    ({ mixedReview with
        SubCheckResults := [⟨"phpstan", "ok", true, "fine", false⟩] }
      : BinaryReviewResult).GetSummary (fun s => s) = "" := by
  constructor
  · rw [(C5_getSummary_spec
      (fun s => if s == "<script>x</script>hello" then "hello" else s) mixedReview).1]
    rfl
  · exact (C5_getSummary_spec (fun s => s) _).2 (by decide)

/-- C3: when the icon decodes, a 256×256 image makes the multipart body carry
the original byte stream unchanged, while any other size makes it carry the
PNG encoding of a fresh 256×256 canvas whose pixels come from the
`draw.CatmullRom` scaling of the decoded image — regardless of the source
format. -/
theorem C3_icon_normalization {α : Type} (fileBytes encoded : List Nat)
    (decode : List Nat → Except String (GoImage α))
    (catmullRomScale : GoImage α → α)
    (pngEncode : GoImage α → Except String (List Nat)) (img : GoImage α)
    (hdec : decode fileBytes = .ok img)
    (henc : pngEncode ⟨256, 256, catmullRomScale img⟩ = .ok encoded) :
    (img.width = 256 ∧ img.height = 256 →
      UpdateExtensionIcon (.ok ()) (.ok fileBytes) decode catmullRomScale pngEncode
          (.ok ()) (.ok ()) (.ok ()) (.ok ()) (.ok ()) (.ok [])
        = ⟨.ok fileBytes, true, true⟩) ∧
    (¬(img.width = 256 ∧ img.height = 256) →
      UpdateExtensionIcon (.ok ()) (.ok fileBytes) decode catmullRomScale pngEncode
          (.ok ()) (.ok ()) (.ok ()) (.ok ()) (.ok ()) (.ok [])
        = ⟨.ok encoded, true, true⟩) := by
  constructor
  · rintro ⟨h1, h2⟩
    simp [UpdateExtensionIcon, hdec, h1, h2, iconUploadFinish]
  · intro h
    have hb : (img.width != 256 || img.height != 256) = true := by
      rw [not_and_or] at h
      rcases h with h | h <;> simp [h]
    simp [UpdateExtensionIcon, hdec, hb, henc, iconUploadFinish]

/-- C3 witness: a 256×256 icon passes its two bytes through unchanged; a
512×256 icon is replaced by the encoding of the scaled 256×256 canvas. -/
theorem C3_icon_normalization_witness :
    UpdateExtensionIcon (.ok ()) (.ok [1, 2])
        (fun _ => .ok (⟨256, 256, ()⟩ : GoImage Unit)) (fun _ => ())
        (fun _ => .ok [9]) (.ok ()) (.ok ()) (.ok ()) (.ok ()) (.ok ()) (.ok [])
      = ⟨.ok [1, 2], true, true⟩ ∧
    UpdateExtensionIcon (.ok ()) (.ok [1, 2])
        (fun _ => .ok (⟨512, 256, ()⟩ : GoImage Unit)) (fun _ => ())
        (fun _ => .ok [9]) (.ok ()) (.ok ()) (.ok ()) (.ok ()) (.ok ()) (.ok [])
      = ⟨.ok [9], true, true⟩ :=
  ⟨(C3_icon_normalization [1, 2] [9] _ _ _ ⟨256, 256, ()⟩ rfl rfl).1 (by decide),
   (C3_icon_normalization [1, 2] [9] _ _ _ ⟨512, 256, ()⟩ rfl rfl).2 (by decide)⟩

/-- C7 counterexample: in `TriggerCodeReview` the failure of the final
request execution is handed to the caller exactly as it came in, without the
call-site label — the claim that no error escapes unlabelled is false. -/
theorem C7_counterexample_unlabelled_doRequest :
    TriggerCodeReview (.ok ()) (.error "request failed") = .error "request failed" ∧
      "request failed" ≠ fmtErr "TriggerCodeReview" "request failed" :=
  ⟨rfl, by decide⟩

set_option linter.unusedTactic false in
/-- C7 amended: in the error-only operations `UpdateExtensionBinaryInfo`,
`UpdateExtensionBinaryFile` and `TriggerCodeReview`, every failure before the
final request execution is wrapped with the call-site label, but the final
`doRequest` failure is returned to the caller unwrapped. -/
theorem C7_label_except_final_doRequest :
    (∀ (marshal : Except String (List Nat)) (newReq : Except String Unit)
        (doReq : Except String (List Nat)) (err : String),
      (marshal = .error err →
        UpdateExtensionBinaryInfo marshal newReq doReq
          = .error (fmtErr "UpdateExtensionBinaryInfo" err)) ∧
      ((∃ body, marshal = .ok body) → newReq = .error err →
        UpdateExtensionBinaryInfo marshal newReq doReq
          = .error (fmtErr "UpdateExtensionBinaryInfo" err)) ∧
      ((∃ body, marshal = .ok body) → newReq = .ok () → doReq = .error err →
        UpdateExtensionBinaryInfo marshal newReq doReq = .error err)) ∧
    (∀ (newReq : Except String Unit) (doReq : Except String (List Nat)) (err : String),
      (newReq = .error err →
        TriggerCodeReview newReq doReq = .error (fmtErr "TriggerCodeReview" err)) ∧
      (newReq = .ok () → doReq = .error err →
        TriggerCodeReview newReq doReq = .error err)) ∧
    (∀ (cff openF copyF wClose newReq : Except String Unit)
        (doReq : Except String (List Nat)) (err : String),
      (cff = .error err →
        (UpdateExtensionBinaryFile cff openF copyF wClose newReq doReq).result
          = .error (fmtErr "UpdateExtensionBinaryFile" err)) ∧
      (cff = .ok () → openF = .error err →
        (UpdateExtensionBinaryFile cff openF copyF wClose newReq doReq).result
          = .error (fmtErr "UpdateExtensionBinaryFile" err)) ∧
      (cff = .ok () → openF = .ok () → copyF = .error err →
        (UpdateExtensionBinaryFile cff openF copyF wClose newReq doReq).result
          = .error (fmtErr "UpdateExtensionBinaryFile" err)) ∧
      (cff = .ok () → openF = .ok () → copyF = .ok () → wClose = .error err →
        (UpdateExtensionBinaryFile cff openF copyF wClose newReq doReq).result
          = .error (fmtErr "UpdateExtensionBinaryFile" err)) ∧
      (cff = .ok () → openF = .ok () → copyF = .ok () → wClose = .ok () →
          newReq = .error err →
        (UpdateExtensionBinaryFile cff openF copyF wClose newReq doReq).result
          = .error (fmtErr "UpdateExtensionBinaryFile" err)) ∧
      (cff = .ok () → openF = .ok () → copyF = .ok () → wClose = .ok () →
          newReq = .ok () → doReq = .error err →
        (UpdateExtensionBinaryFile cff openF copyF wClose newReq doReq).result
          = .error err)) := by
  refine ⟨fun marshal newReq doReq err => ⟨?_, ?_, ?_⟩,
    fun newReq doReq err => ⟨?_, ?_⟩,
    fun cff openF copyF wClose newReq doReq err => ⟨?_, ?_, ?_, ?_, ?_, ?_⟩⟩ <;>
    first
      | (rintro rfl; rfl)
      | (rintro ⟨body, rfl⟩ rfl; rfl)
      | (rintro ⟨body, rfl⟩ rfl rfl; rfl)
      | (rintro rfl rfl; rfl)
      | (rintro rfl rfl rfl; rfl)
      | (rintro rfl rfl rfl rfl; rfl)
      | (rintro rfl rfl rfl rfl rfl; rfl)
      | (rintro rfl rfl rfl rfl rfl rfl; rfl)

/-- C7 witness: concrete runs of the amended statement — a marshal failure is
labelled, and a final request failure escapes verbatim. -/
theorem C7_label_witness :
    UpdateExtensionBinaryInfo (.error "boom") (.ok ()) (.ok [])
        = .error "UpdateExtensionBinaryInfo: boom" ∧
      UpdateExtensionBinaryInfo (.ok [1]) (.ok ()) (.error "boom") = .error "boom" :=
  ⟨(C7_label_except_final_doRequest.1 (.error "boom") (.ok ()) (.ok []) "boom").1 rfl,
   (C7_label_except_final_doRequest.1 (.ok [1]) (.ok ()) (.error "boom") "boom").2.2
     ⟨[1], rfl⟩ rfl rfl⟩

/-- C9: the upload operations do not release their local file handles on
every exit path.  With a file whose bytes fail image decoding,
`UpdateExtensionIcon` returns the wrapped decode error with the icon handle
still open; `UpdateExtensionBinaryFile` and `AddExtensionImage` never invoke
`Close` on their handles, even on the fully successful path. -/
theorem C9_file_handle_leaks :
    (UpdateExtensionIcon (.ok ()) (.ok [1])
        (fun _ => (.error "bad image" : Except String (GoImage Unit)))
        (fun _ => ()) (fun _ => .ok []) (.ok ()) (.ok ()) (.ok ()) (.ok ())
        (.ok ()) (.ok [])
      = ⟨.error "UpdateExtensionIcon: bad image", true, false⟩) ∧
    ((UpdateExtensionBinaryFile (.ok ()) (.ok ()) (.ok ()) (.ok ()) (.ok ())
        (.ok [])).fileOpened = true ∧
      (UpdateExtensionBinaryFile (.ok ()) (.ok ()) (.ok ()) (.ok ()) (.ok ())
        (.ok [])).fileClosed = false) ∧
    ((AddExtensionImage (.ok ()) (.ok ()) (.ok ()) (.ok ()) (.ok ()) (.ok ())
        (.ok [⟨5, "link", [], 0⟩])).fileOpened = true ∧
      (AddExtensionImage (.ok ()) (.ok ()) (.ok ()) (.ok ()) (.ok ()) (.ok ())
        (.ok [⟨5, "link", [], 0⟩])).fileClosed = false) :=
  ⟨rfl, ⟨rfl, rfl⟩, ⟨rfl, rfl⟩⟩
